import Mathlib

/-!
Shallow embedding of the wifi-proxy core (interface discovery, connection
status parsing, network scanning) together with proofs of the specified
properties.  The Rust string primitives used by the source
(`str::split`, `str::splitn`, `str::lines`, `str::contains`,
`str::parse::<u8>`, `Vec::join`) are modelled as executable Lean functions
on the character lists underlying `String`.
-/

namespace WifiProxy

/-- Model of Rust `str::split(sep)` on character lists: splits at every
occurrence of `sep`, yielding at least one (possibly empty) field. -/
def splitAllCh (sep : Char) : List Char → List (List Char)
  | [] => [[]]
  | c :: cs =>
    if c = sep then [] :: splitAllCh sep cs
    else
      match splitAllCh sep cs with
      | [] => [[c]]
      | r :: rs => (c :: r) :: rs

/-- Model of Rust `Vec::join(sep)` (with a one-character separator) on
character lists. -/
def joinSepCh (sep : Char) : List (List Char) → List Char
  | [] => []
  | [a] => a
  | a :: b :: rest => a ++ sep :: joinSepCh sep (b :: rest)

/-- Model of Rust `str::splitn(2, sep)`: splits at the first occurrence of
`sep` only; `none` when `sep` does not occur. -/
def splitFirstCh (sep : Char) : List Char → Option (List Char × List Char)
  | [] => none
  | c :: cs =>
    if c = sep then some ([], cs)
    else (splitFirstCh sep cs).map fun p => (c :: p.1, p.2)

theorem splitAllCh_ne_nil (sep : Char) (l : List Char) : splitAllCh sep l ≠ [] := by
  induction l with
  | nil => simp [splitAllCh]
  | cons c cs ih =>
    simp only [splitAllCh]
    split
    · simp
    · cases h : splitAllCh sep cs with
      | nil => simp
      | cons r rs => simp

theorem splitAllCh_no_sep (sep : Char) (l : List Char) (h : sep ∉ l) :
    splitAllCh sep l = [l] := by
  induction l with
  | nil => rfl
  | cons c cs ih =>
    simp only [List.mem_cons, not_or] at h
    simp only [splitAllCh]
    rw [if_neg (fun hc => h.1 hc.symm)]
    rw [ih h.2]

theorem splitAllCh_append (sep : Char) (a rest : List Char) (h : sep ∉ a) :
    splitAllCh sep (a ++ sep :: rest) = a :: splitAllCh sep rest := by
  induction a with
  | nil => simp [splitAllCh]
  | cons c cs ih =>
    simp only [List.mem_cons, not_or] at h
    simp only [List.cons_append, splitAllCh, List.append_eq]
    rw [if_neg (fun hc => h.1 hc.symm)]
    rw [ih h.2]

theorem joinSepCh_cons_cons (sep : Char) (a b : List Char) (rest : List (List Char)) :
    joinSepCh sep (a :: b :: rest) = a ++ sep :: joinSepCh sep (b :: rest) := rfl

theorem joinSepCh_splitAllCh (sep : Char) (l : List Char) :
    joinSepCh sep (splitAllCh sep l) = l := by
  induction l with
  | nil => rfl
  | cons c cs ih =>
    simp only [splitAllCh]
    split
    · rename_i hc
      cases hr : splitAllCh sep cs with
      | nil => exact absurd hr (splitAllCh_ne_nil _ _)
      | cons r rs =>
        rw [hr] at ih
        rw [joinSepCh_cons_cons, ih, hc]
        simp
    · cases hr : splitAllCh sep cs with
      | nil => exact absurd hr (splitAllCh_ne_nil _ _)
      | cons r rs =>
        rw [hr] at ih
        cases rs with
        | nil =>
          simp only [joinSepCh] at ih ⊢
          rw [ih]
        | cons r2 rs2 =>
          rw [joinSepCh_cons_cons] at ih
          rw [joinSepCh_cons_cons]
          simp only [List.cons_append]
          rw [ih]

theorem splitFirstCh_append (sep : Char) (k v : List Char) (h : sep ∉ k) :
    splitFirstCh sep (k ++ sep :: v) = some (k, v) := by
  induction k with
  | nil => simp [splitFirstCh]
  | cons c cs ih =>
    simp only [List.mem_cons, not_or] at h
    simp only [List.cons_append, splitFirstCh, List.append_eq]
    rw [if_neg (fun hc => h.1 hc.symm)]
    rw [ih h.2]
    rfl

theorem splitFirstCh_no_sep (sep : Char) (l : List Char) (h : sep ∉ l) :
    splitFirstCh sep l = none := by
  induction l with
  | nil => rfl
  | cons c cs ih =>
    simp only [List.mem_cons, not_or] at h
    simp only [splitFirstCh]
    rw [if_neg (fun hc => h.1 hc.symm)]
    rw [ih h.2]
    rfl

/-- Rust `str::split(sep).collect::<Vec<_>>()` on a `String`. -/
def rustSplit (s : String) (sep : Char) : List String :=
  (splitAllCh sep s.data).map String.mk

/-- Rust `Vec::<&str>::join(":")`, as used for reassembling the trailing
security fields of a scan record. -/
def joinColon (l : List String) : String :=
  String.mk (joinSepCh ':' (l.map String.data))

/-- Strips one trailing carriage return, as Rust `str::lines` does for
`\r\n` line endings. -/
def stripCR (l : List Char) : List Char :=
  if l.getLast? = some '\r' then l.dropLast else l

/-- Rust `str::lines()`: splits at every newline, strips a carriage return
before each newline, and yields no final empty line for a trailing
newline.  A final segment not terminated by a newline keeps a trailing
carriage return, exactly as in Rust. -/
def rustLines (s : String) : List String :=
  let ps := splitAllCh '\n' s.data
  let most := (ps.dropLast.map stripCR).map String.mk
  let last := ps.getLastD []
  if last = [] then most else most ++ [String.mk last]

/-- Rust `str::contains(pat)` for a literal string pattern: substring
occurrence test. -/
def rustContains (s pat : String) : Bool :=
  decide (pat.data <:+: s.data)

/-- Numeric value of a digit string, most significant digit first. -/
def digitsValCh (l : List Char) : Nat :=
  l.foldl (fun acc c => acc * 10 + (c.toNat - 48)) 0

/-- Digit-sequence part of Rust `str::parse::<u8>()`: one or more ASCII
digits whose value fits in eight bits. -/
def parseDigitsU8 (ds : List Char) : Option Nat :=
  if ds = [] then none
  else if ds.all Char.isDigit then
    if digitsValCh ds ≤ 255 then some (digitsValCh ds) else none
  else none

/-- Rust `str::parse::<u8>()`: an optional leading plus sign followed by
one or more ASCII digits, rejecting values above 255; `none` models
`Err(_)`. -/
def parseU8 (s : String) : Option Nat :=
  parseDigitsU8 (if s.data.head? = some '+' then s.data.tail else s.data)

/-- Captured outcome of one external `nmcli` invocation
(`std::process::Output`): exit-status success flag plus the two captured
streams, already decoded (the source decodes them with
`String::from_utf8_lossy`). -/
structure CmdOutput where
  success : Bool
  stdout : String
  stderr : String
  deriving Repr, DecidableEq

/-- Errors surfaced by the library (`WifiProxyError` in `error.rs`,
restricted to the variants the modelled operations construct), together
with `ExecFailed`, which models the `anyhow` context error produced when
a command cannot be spawned at all (`.context("Failed to execute ...")`).  -/
inductive WifiError where
  | NoUsbInterfaceFound : WifiError
  | InterfaceNotFound : String → WifiError
  | NmcliExecution : String → WifiError
  | ConnectionFailed : String → WifiError
  | ExecFailed : String → WifiError
  deriving Repr, DecidableEq

/-- `ConnectionStatus` from `connection.rs`. -/
structure ConnectionStatus where
  interface : String
  state : String
  connection : Option String
  ip_address : Option String
  gateway : Option String
  deriving Repr, DecidableEq

/-- The initial status record built by `status` before parsing
(`state = "unknown"`, all optional fields `None`). -/
def initStatus (interface : String) : ConnectionStatus :=
  { interface := interface, state := "unknown",
    connection := none, ip_address := none, gateway := none }

/-- One iteration of the line loop inside `status` (`connection.rs`):
split the line at the first colon (skipping lines without one), then
dispatch on the key.  `GENERAL.CONNECTION` and `IP4.GATEWAY` values are
normalized (empty and `"--"` are dropped); `GENERAL.STATE` and
`IP4.ADDRESS[1]` values are stored verbatim. -/
def statusLine (st : ConnectionStatus) (line : String) : ConnectionStatus :=
  match splitFirstCh ':' line.data with
  | none => st
  | some (k, v) =>
    let key := String.mk k
    let value := String.mk v
    if key = "GENERAL.STATE" then { st with state := value }
    else if key = "GENERAL.CONNECTION" then
      if value ≠ "" ∧ value ≠ "--" then { st with connection := some value } else st
    else if key = "IP4.ADDRESS[1]" then { st with ip_address := some value }
    else if key = "IP4.GATEWAY" then
      if value ≠ "" ∧ value ≠ "--" then { st with gateway := some value } else st
    else st

/-- The parsing phase of `status`: fold `statusLine` over the output
lines, starting from `initStatus`. -/
def statusOfLines (interface : String) (lines : List String) : ConnectionStatus :=
  lines.foldl statusLine (initStatus interface)

/-- `status` from `connection.rs`, with the result of the
`nmcli -t device show` invocation passed in explicitly
(`none` = the command could not be spawned). -/
def status (interface : String) (out : Option CmdOutput) :
    Except WifiError ConnectionStatus :=
  match out with
  | none => .error (.ExecFailed "Failed to execute nmcli device show")
  | some o =>
    if o.success then .ok (statusOfLines interface (rustLines o.stdout))
    else .error (.NmcliExecution o.stderr)

/-- `connect` from `connection.rs`, with the result of the
`nmcli device wifi connect ...` invocation passed in explicitly.  On a
non-zero exit the error message is stderr when non-empty, else stdout. -/
def connect (interface ssid password : String) (out : Option CmdOutput) :
    Except WifiError Unit :=
  match out with
  | none => .error (.ExecFailed "Failed to execute nmcli connect")
  | some o =>
    if o.success then .ok ()
    else .error (.ConnectionFailed (if o.stderr = "" then o.stdout else o.stderr))

/-- `Network` from `scan.rs`; `signal` is the Rust `u8` field, modelled
as a natural number (every value the code constructs is at most 255). -/
structure Network where
  ssid : String
  signal : Nat
  security : String
  deriving Repr, DecidableEq

/-- Parsing of one line of `nmcli -t -f SSID,SIGNAL,SECURITY device wifi
list` output, as done inside the loop of `scan_networks`: split at every
colon; a line with fewer than three fields is skipped; otherwise the
first field is the SSID, the second parses as `u8` defaulting to `0`,
and all remaining fields are rejoined with colons into `security`. -/
def scanRecord (line : String) : Option Network :=
  let parts := rustSplit line ':'
  if parts.length ≥ 3 then
    some { ssid := parts.getD 0 "",
           signal := (parseU8 (parts.getD 1 "")).getD 0,
           security := joinColon (parts.drop 2) }
  else none

/-- The parsing loop of `scan_networks`: accumulates networks in
discovery order, skipping empty SSIDs and SSIDs already seen
(`seen_ssids` in the source). -/
def scanLoop (networks : List Network) (seen : List String) :
    List String → List Network
  | [] => networks
  | line :: rest =>
    match scanRecord line with
    | none => scanLoop networks seen rest
    | some n =>
      if n.ssid = "" ∨ seen.contains n.ssid then scanLoop networks seen rest
      else scanLoop (networks ++ [n]) (seen ++ [n.ssid]) rest

/-- Comparison used by `networks.sort_by(|a, b| b.signal.cmp(&a.signal))`:
`a` may stay before `b` exactly when `b.signal ≤ a.signal`. -/
def signalDescLe (a b : Network) : Bool :=
  decide (b.signal ≤ a.signal)

/-- The pure part of `scan_networks`: parse, deduplicate, then stable-sort
by descending signal (Rust `sort_by` is stable; `List.mergeSort` is the
matching stable sort). -/
def scanNetworksPure (lines : List String) : List Network :=
  (scanLoop [] [] lines).mergeSort signalDescLe

/-- `scan_networks` from `scan.rs`, with the outcomes of the two `nmcli`
invocations passed in explicitly.  The rescan outcome (`rescan`) is
discarded by the source (`let _ = ...`); the 500 ms sleep has no
observable effect on the result and is not modelled.  Only the
`nmcli ... wifi list` invocation (`listing`) decides success. -/
def scanNetworks (rescan : Option CmdOutput) (listing : Option CmdOutput) :
    Except WifiError (List Network) :=
  match listing with
  | none => .error (.ExecFailed "Failed to execute nmcli wifi list")
  | some o =>
    if o.success then .ok (scanNetworksPure (rustLines o.stdout))
    else .error (.NmcliExecution o.stderr)

/-- View of the sysfs entries `is_usb_interface` (`interface.rs`) reads
for one adapter: whether `/sys/class/net/<name>/device` exists, the
result of `fs::read_link` on it (`none` when the link cannot be read or
its target is not valid UTF-8), and the content of the `uevent` file
under it (`none` when unreadable). -/
structure SysfsDevice where
  deviceExists : Bool
  readLink : Option String
  uevent : Option String
  deriving Repr, DecidableEq

/-- `is_usb_interface` from `interface.rs`: a missing device entry is not
USB; a readable symlink decides by itself whether the resolved path
contains `"usb"`; only when the symlink cannot be read does the `uevent`
content get consulted; with no signal the default is `false`. -/
def isUsbInterface (dev : SysfsDevice) : Bool :=
  if !dev.deviceExists then false
  else
    match dev.readLink with
    | some resolved => rustContains resolved "usb"
    | none =>
      match dev.uevent with
      | some content => if rustContains content "usb" then true else false
      | none => false

/-- `WifiInterface` from `interface.rs`. -/
structure WifiInterface where
  name : String
  state : String
  is_usb : Bool
  deriving Repr, DecidableEq

/-- The parsing loop of `list_wifi_interfaces`: each `DEVICE:TYPE:STATE`
line with at least three fields and type `"wifi"` contributes an
interface whose state is the third field; `env` supplies the sysfs view
used for USB classification. -/
def listWifiInterfacesPure (env : String → SysfsDevice) (lines : List String) :
    List WifiInterface :=
  lines.foldl
    (fun interfaces line =>
      let parts := rustSplit line ':'
      if parts.length ≥ 3 ∧ parts.getD 1 "" = "wifi" then
        interfaces ++ [{ name := parts.getD 0 "", state := parts.getD 2 "",
                         is_usb := isUsbInterface (env (parts.getD 0 "")) }]
      else interfaces)
    []

/-- `list_wifi_interfaces` from `interface.rs`, with the outcome of
`nmcli -t -f DEVICE,TYPE,STATE device` passed in explicitly. -/
def listWifiInterfaces (env : String → SysfsDevice) (out : Option CmdOutput) :
    Except WifiError (List WifiInterface) :=
  match out with
  | none => .error (.ExecFailed "Failed to execute nmcli")
  | some o =>
    if o.success then .ok (listWifiInterfacesPure env (rustLines o.stdout))
    else .error (.NmcliExecution o.stderr)

/-- `find_usb_wifi_interface` from `interface.rs`: first listed interface
with `is_usb`, else `NoUsbInterfaceFound`. -/
def findUsbWifiInterface (env : String → SysfsDevice) (out : Option CmdOutput) :
    Except WifiError WifiInterface :=
  (listWifiInterfaces env out).bind fun interfaces =>
    match interfaces.find? (fun i => i.is_usb) with
    | some i => .ok i
    | none => .error .NoUsbInterfaceFound

/-- `get_interface` from `interface.rs`: exact name lookup among the
listed wireless interfaces, else `InterfaceNotFound(name)`. -/
def getInterface (env : String → SysfsDevice) (out : Option CmdOutput)
    (name : String) : Except WifiError WifiInterface :=
  (listWifiInterfaces env out).bind fun interfaces =>
    match interfaces.find? (fun i => i.name == name) with
    | some i => .ok i
    | none => .error (.InterfaceNotFound name)

/-- `resolve_interface` from `interface.rs`. -/
def resolveInterface (env : String → SysfsDevice) (out : Option CmdOutput) :
    Option String → Except WifiError WifiInterface
  | some name => getInterface env out name
  | none => findUsbWifiInterface env out

theorem signalDescLe_trans (a b c : Network) :
    signalDescLe a b → signalDescLe b c → signalDescLe a c := by
  simp only [signalDescLe, decide_eq_true_eq]
  exact fun h1 h2 => Nat.le_trans h2 h1

theorem signalDescLe_total (a b : Network) :
    signalDescLe a b || signalDescLe b a := by
  simp only [signalDescLe, Bool.or_eq_true, decide_eq_true_eq]
  exact Nat.le_total b.signal a.signal

/-- Stability of the stable sort, in filtered form: the elements
satisfying a predicate that forces mutual ties come out of `mergeSort` in
exactly their input order. -/
theorem mergeSort_filter_eq_of_le {α : Type} (le : α → α → Bool)
    (trans : ∀ a b c : α, le a b → le b c → le a c)
    (total : ∀ a b : α, le a b || le b a)
    (p : α → Bool) (hp : ∀ a b, p a → p b → le a b) (l : List α) :
    (l.mergeSort le).filter p = l.filter p := by
  have hpw : (l.filter p).Pairwise (fun a b => le a b) := by
    apply List.pairwise_of_forall_mem_list
    intro a ha b hb
    exact hp a b (List.of_mem_filter ha) (List.of_mem_filter hb)
  have hs : List.Sublist (l.filter p) (l.mergeSort le) :=
    List.sublist_mergeSort trans total hpw (List.filter_sublist l)
  have h2 : List.Sublist (l.filter p) ((l.mergeSort le).filter p) := by
    have h3 := hs.filter p
    rwa [List.filter_filter, List.filter_congr (fun a _ => Bool.and_self (p a))] at h3
  have hperm : List.Perm ((l.mergeSort le).filter p) (l.filter p) :=
    (l.mergeSort_perm le).filter p
  exact (h2.eq_of_length hperm.length_eq.symm).symm

theorem parseDigitsU8_le (ds : List Char) (v : Nat)
    (h : parseDigitsU8 ds = some v) : v ≤ 255 := by
  unfold parseDigitsU8 at h
  split at h
  · exact absurd h (by simp)
  · split at h
    · split at h
      · rename_i hle
        cases h
        exact hle
      · exact absurd h (by simp)
    · exact absurd h (by simp)

theorem parseU8_le (s : String) (v : Nat) (h : parseU8 s = some v) : v ≤ 255 :=
  parseDigitsU8_le _ v h

theorem scanRecord_signal_le (line : String) (n : Network)
    (h : scanRecord line = some n) : n.signal ≤ 255 := by
  simp only [scanRecord] at h
  split at h
  · cases h
    cases hv : parseU8 ((rustSplit line ':').getD 1 "") with
    | none => simp [hv]
    | some v => simpa [hv] using parseU8_le _ _ hv
  · exact absurd h (by simp)

theorem scanLoop_mem (rest : List String) :
    ∀ networks seen, ∀ n ∈ scanLoop networks seen rest,
      n ∈ networks ∨ ∃ line ∈ rest, scanRecord line = some n := by
  induction rest with
  | nil =>
    intro networks seen n hn
    exact Or.inl hn
  | cons line rest ih =>
    intro networks seen n hn
    simp only [scanLoop] at hn
    cases hrec : scanRecord line with
    | none =>
      simp only [hrec] at hn
      rcases ih _ _ n hn with h | ⟨l, hl, he⟩
      · exact Or.inl h
      · exact Or.inr ⟨l, List.mem_cons_of_mem _ hl, he⟩
    | some m =>
      simp only [hrec] at hn
      split at hn
      · rcases ih _ _ n hn with h | ⟨l, hl, he⟩
        · exact Or.inl h
        · exact Or.inr ⟨l, List.mem_cons_of_mem _ hl, he⟩
      · rcases ih _ _ n hn with h | ⟨l, hl, he⟩
        · rcases List.mem_append.mp h with h | h
          · exact Or.inl h
          · simp only [List.mem_singleton] at h
            subst h
            exact Or.inr ⟨line, List.mem_cons_self _ _, hrec⟩
        · exact Or.inr ⟨l, List.mem_cons_of_mem _ hl, he⟩

theorem scanLoop_ssid_ne (rest : List String) :
    ∀ networks seen, (∀ n ∈ networks, n.ssid ≠ "") →
      ∀ n ∈ scanLoop networks seen rest, n.ssid ≠ "" := by
  induction rest with
  | nil =>
    intro networks seen h n hn
    exact h n hn
  | cons line rest ih =>
    intro networks seen h n hn
    simp only [scanLoop] at hn
    cases hrec : scanRecord line with
    | none =>
      simp only [hrec] at hn
      exact ih _ _ h n hn
    | some m =>
      simp only [hrec] at hn
      split at hn
      · exact ih _ _ h n hn
      · rename_i hskip
        push_neg at hskip
        refine ih _ _ ?_ n hn
        intro x hx
        rcases List.mem_append.mp hx with hx | hx
        · exact h x hx
        · simp only [List.mem_singleton] at hx
          subst hx
          exact hskip.1

theorem scanLoop_signal_le (rest : List String) :
    ∀ networks seen, (∀ n ∈ networks, n.signal ≤ 255) →
      ∀ n ∈ scanLoop networks seen rest, n.signal ≤ 255 := by
  induction rest with
  | nil =>
    intro networks seen h n hn
    exact h n hn
  | cons line rest ih =>
    intro networks seen h n hn
    simp only [scanLoop] at hn
    cases hrec : scanRecord line with
    | none =>
      simp only [hrec] at hn
      exact ih _ _ h n hn
    | some m =>
      simp only [hrec] at hn
      split at hn
      · exact ih _ _ h n hn
      · refine ih _ _ ?_ n hn
        intro x hx
        rcases List.mem_append.mp hx with hx | hx
        · exact h x hx
        · simp only [List.mem_singleton] at hx
          subst hx
          exact scanRecord_signal_le line _ hrec

theorem scanLoop_nodup (rest : List String) :
    ∀ networks seen, (networks.map Network.ssid).Nodup →
      (∀ n ∈ networks, n.ssid ∈ seen) →
      ((scanLoop networks seen rest).map Network.ssid).Nodup := by
  induction rest with
  | nil =>
    intro networks seen h _
    exact h
  | cons line rest ih =>
    intro networks seen h hseen
    simp only [scanLoop]
    cases hrec : scanRecord line with
    | none => exact ih _ _ h hseen
    | some m =>
      dsimp only
      by_cases hskip : m.ssid = "" ∨ seen.contains m.ssid
      · rw [if_pos hskip]
        exact ih _ _ h hseen
      · rw [if_neg hskip]
        push_neg at hskip
        have hmem : m.ssid ∉ seen := by
          intro hc
          exact absurd (List.elem_iff.mpr hc) (by simpa [List.contains] using hskip.2)
        refine ih _ _ ?_ ?_
        · rw [List.map_append]
          simp only [List.map_cons, List.map_nil]
          rw [List.nodup_append]
          refine ⟨h, List.nodup_singleton _, ?_⟩
          intro x hx
          simp only [List.mem_singleton]
          intro hxm
          subst hxm
          rcases List.mem_map.mp hx with ⟨y, hy, hys⟩
          exact hmem (hys ▸ hseen y hy)
        · intro x hx
          rcases List.mem_append.mp hx with hx | hx
          · exact List.mem_append_left _ (hseen x hx)
          · simp only [List.mem_singleton] at hx
            subst hx
            exact List.mem_append_right _ (List.mem_singleton_self _)

theorem scanLoop_firstSeen (rest : List String) :
    ∀ networks seen, (∀ x ∈ networks, x.ssid ∈ seen) →
      ∀ n ∈ scanLoop networks seen rest,
        n ∈ networks ∨
          (n.ssid ≠ "" ∧ n.ssid ∉ seen ∧
            (rest.filterMap scanRecord).find? (fun m => m.ssid == n.ssid) = some n) := by
  induction rest with
  | nil =>
    intro networks seen _ n hn
    exact Or.inl hn
  | cons line rest ih =>
    intro networks seen hseen n hn
    simp only [scanLoop] at hn
    cases hrec : scanRecord line with
    | none =>
      simp only [hrec] at hn
      rcases ih _ _ hseen n hn with h | ⟨h1, h2, h3⟩
      · exact Or.inl h
      · exact Or.inr ⟨h1, h2, by rwa [List.filterMap_cons_none hrec]⟩
    | some m =>
      simp only [hrec] at hn
      split at hn
      · rename_i hskip
        rcases ih _ _ hseen n hn with h | ⟨h1, h2, h3⟩
        · exact Or.inl h
        · refine Or.inr ⟨h1, h2, ?_⟩
          rw [List.filterMap_cons_some hrec]
          rw [List.find?_cons_of_neg]
          · exact h3
          · simp only [beq_iff_eq]
            intro hms
            rcases hskip with hm0 | hmseen
            · exact h1 (hms ▸ hm0)
            · exact h2 (hms ▸ List.elem_iff.mp (by simpa [List.contains] using hmseen))
      · rename_i hskip
        push_neg at hskip
        have hmnotseen : m.ssid ∉ seen := by
          intro hc
          exact absurd (List.elem_iff.mpr hc) (by simpa [List.contains] using hskip.2)
        have hseen' : ∀ x ∈ networks ++ [m], x.ssid ∈ seen ++ [m.ssid] := by
          intro x hx
          rcases List.mem_append.mp hx with hx | hx
          · exact List.mem_append_left _ (hseen x hx)
          · simp only [List.mem_singleton] at hx
            subst hx
            exact List.mem_append_right _ (List.mem_singleton_self _)
        rcases ih _ _ hseen' n hn with h | ⟨h1, h2, h3⟩
        · rcases List.mem_append.mp h with h | h
          · exact Or.inl h
          · simp only [List.mem_singleton] at h
            subst h
            refine Or.inr ⟨hskip.1, hmnotseen, ?_⟩
            rw [List.filterMap_cons_some hrec]
            exact List.find?_cons_of_pos _ (by simp)
        · simp only [List.mem_append, List.mem_singleton, not_or] at h2
          refine Or.inr ⟨h1, h2.1, ?_⟩
          rw [List.filterMap_cons_some hrec]
          rw [List.find?_cons_of_neg]
          · exact h3
          · simp only [beq_iff_eq]
            intro hms
            exact h2.2 hms.symm

/-- The key of a `KEY:VALUE` status line, when the line contains a colon. -/
def keyOf (line : String) : Option String :=
  (splitFirstCh ':' line.data).map fun p => String.mk p.1

/-- A status field is normalized when it is absent or holds a value that
is neither empty nor the daemon's `"--"` sentinel. -/
def normalizedField (o : Option String) : Bool :=
  match o with
  | none => true
  | some v => !(v == "") && !(v == "--")

theorem normalizedField_iff (o : Option String) :
    normalizedField o = true ↔ ∀ v, o = some v → v ≠ "" ∧ v ≠ "--" := by
  cases o with
  | none => simp [normalizedField]
  | some v => simp [normalizedField]

theorem data_append_colon (k v : String) :
    (k ++ ":" ++ v).data = k.data ++ ':' :: v.data := by
  rw [String.data_append, String.data_append]
  have h : (":" : String).data = [':'] := rfl
  rw [h, List.append_assoc]
  rfl

/-- Evaluation of `statusLine` on a well-formed `KEY:VALUE` line whose key
contains no colon: the whole remainder after the first colon, further
colons included, is the value. -/
theorem statusLine_eq (st : ConnectionStatus) (k v : String) (h : ':' ∉ k.data) :
    statusLine st (k ++ ":" ++ v) =
      if k = "GENERAL.STATE" then { st with state := v }
      else if k = "GENERAL.CONNECTION" then
        if v ≠ "" ∧ v ≠ "--" then { st with connection := some v } else st
      else if k = "IP4.ADDRESS[1]" then { st with ip_address := some v }
      else if k = "IP4.GATEWAY" then
        if v ≠ "" ∧ v ≠ "--" then { st with gateway := some v } else st
      else st := by
  unfold statusLine
  rw [data_append_colon, splitFirstCh_append _ _ _ h]

theorem statusLine_connection_gateway (st : ConnectionStatus) (line : String) :
    ((statusLine st line).connection = st.connection ∨
      ∃ v, (statusLine st line).connection = some v ∧ v ≠ "" ∧ v ≠ "--") ∧
    ((statusLine st line).gateway = st.gateway ∨
      ∃ v, (statusLine st line).gateway = some v ∧ v ≠ "" ∧ v ≠ "--") := by
  unfold statusLine
  cases hsp : splitFirstCh ':' line.data with
  | none => exact ⟨Or.inl rfl, Or.inl rfl⟩
  | some p =>
    obtain ⟨k, v⟩ := p
    dsimp only
    by_cases h1 : String.mk k = "GENERAL.STATE"
    · rw [if_pos h1]
      exact ⟨Or.inl rfl, Or.inl rfl⟩
    · rw [if_neg h1]
      by_cases h2 : String.mk k = "GENERAL.CONNECTION"
      · rw [if_pos h2]
        by_cases h3 : String.mk v ≠ "" ∧ String.mk v ≠ "--"
        · rw [if_pos h3]
          exact ⟨Or.inr ⟨_, rfl, h3⟩, Or.inl rfl⟩
        · rw [if_neg h3]
          exact ⟨Or.inl rfl, Or.inl rfl⟩
      · rw [if_neg h2]
        by_cases h4 : String.mk k = "IP4.ADDRESS[1]"
        · rw [if_pos h4]
          exact ⟨Or.inl rfl, Or.inl rfl⟩
        · rw [if_neg h4]
          by_cases h5 : String.mk k = "IP4.GATEWAY"
          · rw [if_pos h5]
            by_cases h6 : String.mk v ≠ "" ∧ String.mk v ≠ "--"
            · rw [if_pos h6]
              exact ⟨Or.inl rfl, Or.inr ⟨_, rfl, h6⟩⟩
            · rw [if_neg h6]
              exact ⟨Or.inl rfl, Or.inl rfl⟩
          · rw [if_neg h5]
            exact ⟨Or.inl rfl, Or.inl rfl⟩

theorem foldl_statusLine_norm (lines : List String) :
    ∀ st : ConnectionStatus,
      (∀ v, st.connection = some v → v ≠ "" ∧ v ≠ "--") →
      (∀ v, st.gateway = some v → v ≠ "" ∧ v ≠ "--") →
      (∀ v, (lines.foldl statusLine st).connection = some v → v ≠ "" ∧ v ≠ "--") ∧
      (∀ v, (lines.foldl statusLine st).gateway = some v → v ≠ "" ∧ v ≠ "--") := by
  induction lines with
  | nil =>
    intro st h1 h2
    exact ⟨h1, h2⟩
  | cons line rest ih =>
    intro st h1 h2
    rw [List.foldl_cons]
    obtain ⟨hc, hg⟩ := statusLine_connection_gateway st line
    refine ih _ ?_ ?_
    · rcases hc with h | ⟨v, hv, hne⟩
      · rw [h]
        exact h1
      · intro w hw
        rw [hv] at hw
        cases hw
        exact hne
    · rcases hg with h | ⟨v, hv, hne⟩
      · rw [h]
        exact h2
      · intro w hw
        rw [hv] at hw
        cases hw
        exact hne

theorem statusLine_state_eq (st : ConnectionStatus) (line : String)
    (h : keyOf line ≠ some "GENERAL.STATE") :
    (statusLine st line).state = st.state := by
  unfold statusLine
  cases hsp : splitFirstCh ':' line.data with
  | none => rfl
  | some p =>
    obtain ⟨k, v⟩ := p
    have hk : String.mk k ≠ "GENERAL.STATE" := by
      intro hc
      apply h
      unfold keyOf
      rw [hsp]
      simp [hc]
    dsimp only
    rw [if_neg hk]
    by_cases h2 : String.mk k = "GENERAL.CONNECTION"
    · rw [if_pos h2]
      by_cases h3 : String.mk v ≠ "" ∧ String.mk v ≠ "--"
      · rw [if_pos h3]
      · rw [if_neg h3]
    · rw [if_neg h2]
      by_cases h4 : String.mk k = "IP4.ADDRESS[1]"
      · rw [if_pos h4]
      · rw [if_neg h4]
        by_cases h5 : String.mk k = "IP4.GATEWAY"
        · rw [if_pos h5]
          by_cases h6 : String.mk v ≠ "" ∧ String.mk v ≠ "--"
          · rw [if_pos h6]
          · rw [if_neg h6]
        · rw [if_neg h5]

theorem foldl_statusLine_state (lines : List String) :
    ∀ st : ConnectionStatus, (∀ l ∈ lines, keyOf l ≠ some "GENERAL.STATE") →
      (lines.foldl statusLine st).state = st.state := by
  induction lines with
  | nil =>
    intro st _
    rfl
  | cons line rest ih =>
    intro st h
    rw [List.foldl_cons]
    rw [ih _ fun l hl => h l (List.mem_cons_of_mem _ hl)]
    exact statusLine_state_eq st line (h line (List.mem_cons_self _ _))

theorem rustSplit_cons_field (s1 rest : String) (h : ':' ∉ s1.data) :
    rustSplit (s1 ++ ":" ++ rest) ':' = s1 :: rustSplit rest ':' := by
  unfold rustSplit
  rw [data_append_colon, splitAllCh_append _ _ _ h]
  rw [List.map_cons]

theorem rustSplit_ne_nil (s : String) (sep : Char) : rustSplit s sep ≠ [] := by
  unfold rustSplit
  intro hc
  exact splitAllCh_ne_nil sep s.data (List.map_eq_nil_iff.mp hc)

theorem joinColon_rustSplit (s : String) : joinColon (rustSplit s ':') = s := by
  unfold joinColon rustSplit
  rw [List.map_map]
  have hco : (String.data ∘ String.mk) = fun l : List Char => l := rfl
  rw [hco, List.map_id', joinSepCh_splitAllCh]

theorem scanRecord_fields (s1 s2 rest : String)
    (h1 : ':' ∉ s1.data) (h2 : ':' ∉ s2.data) :
    scanRecord (s1 ++ ":" ++ (s2 ++ ":" ++ rest)) =
      some { ssid := s1, signal := (parseU8 s2).getD 0, security := rest } := by
  have hsplit : rustSplit (s1 ++ ":" ++ (s2 ++ ":" ++ rest)) ':' =
      s1 :: s2 :: rustSplit rest ':' := by
    rw [rustSplit_cons_field _ _ h1, rustSplit_cons_field _ _ h2]
  have hne := rustSplit_ne_nil rest ':'
  have hpos : 0 < (rustSplit rest ':').length := List.length_pos.mpr hne
  simp only [scanRecord, hsplit]
  rw [if_pos (by simp only [List.length_cons]; omega)]
  simp only [List.getD_cons_zero, List.getD_cons_succ, List.drop_succ_cons,
    List.drop_zero]
  rw [joinColon_rustSplit]

theorem listWifiLine_fields (env : String → SysfsDevice) (name st rest : String)
    (h1 : ':' ∉ name.data) (h2 : ':' ∉ st.data) :
    listWifiInterfacesPure env [name ++ ":" ++ ("wifi" ++ ":" ++ (st ++ ":" ++ rest))] =
      [{ name := name, state := st, is_usb := isUsbInterface (env name) }] := by
  have hsplit : rustSplit (name ++ ":" ++ ("wifi" ++ ":" ++ (st ++ ":" ++ rest))) ':' =
      name :: "wifi" :: st :: rustSplit rest ':' := by
    rw [rustSplit_cons_field _ _ h1, rustSplit_cons_field _ _ (by decide),
      rustSplit_cons_field _ _ h2]
  unfold listWifiInterfacesPure
  rw [List.foldl_cons, List.foldl_nil]
  dsimp only
  rw [hsplit]
  rw [if_pos ?cond]
  case cond =>
    constructor
    · simp only [List.length_cons]
      omega
    · rw [List.getD_cons_succ, List.getD_cons_zero]
  simp only [List.getD_cons_zero, List.getD_cons_succ, List.nil_append]

theorem mergeSort_pair {α : Type} (le : α → α → Bool) (a b : α) :
    [a, b].mergeSort le = if le a b then [a, b] else [b, a] := by
  rw [List.mergeSort]
  simp [List.splitInTwo, List.merge, List.mergeSort]

theorem scanNetworksPure_eq (lines : List String) :
    scanNetworksPure lines = (scanLoop [] [] lines).mergeSort signalDescLe := rfl

/-- Fixed sysfs environment in which no adapter has a device entry;
used to instantiate classification-independent statements. -/
def envAbsent : String → SysfsDevice :=
  fun _ => { deviceExists := false, readLink := none, uevent := none }

/-- C1 counterexample: on the daemon output line `IP4.ADDRESS[1]:--` the
parser stores the literal sentinel in `ip_address` instead of leaving the
field absent, so the claimed invariant fails for `ipv4Address`. -/
theorem status_ip_sentinel_kept :
    status "wlan1" (some { success := true, stdout := "IP4.ADDRESS[1]:--", stderr := "" }) =
      .ok { interface := "wlan1", state := "unknown", connection := none,
            ip_address := some "--", gateway := none } := rfl

/-- C1 (amended): for every daemon stdout the `connection` and `gateway`
fields of the parsed status are absent or hold a value different from
`""` and `"--"`, and a `GENERAL.CONNECTION:--` line yields an absent
connection; `ip_address`, however, stores the value after the first colon
of an `IP4.ADDRESS[1]` line verbatim, sentinel included. -/
theorem status_absent_field_normalization :
    (∀ iface stdout : String,
      normalizedField (statusOfLines iface (rustLines stdout)).connection = true ∧
      normalizedField (statusOfLines iface (rustLines stdout)).gateway = true) ∧
    (∀ iface : String, (statusOfLines iface ["GENERAL.CONNECTION:--"]).connection = none) ∧
    (∀ (st : ConnectionStatus) (v : String),
      statusLine st ("IP4.ADDRESS[1]:" ++ v) = { st with ip_address := some v }) := by
  refine ⟨?_, ?_, ?_⟩
  · intro iface stdout
    have h := foldl_statusLine_norm (rustLines stdout) (initStatus iface)
      (by intro v hv; exact absurd hv (by simp [initStatus]))
      (by intro v hv; exact absurd hv (by simp [initStatus]))
    exact ⟨(normalizedField_iff _).mpr h.1, (normalizedField_iff _).mpr h.2⟩
  · intro iface
    rfl
  · intro st v
    rw [show ("IP4.ADDRESS[1]:" : String) ++ v = "IP4.ADDRESS[1]" ++ ":" ++ v from rfl]
    rw [statusLine_eq st "IP4.ADDRESS[1]" v (by decide)]
    rfl

/-- C10: the status parser treats an empty value exactly like the `"--"`
sentinel for the `GENERAL.CONNECTION` and `IP4.GATEWAY` keys: such lines
leave the status record unchanged, a line with nothing after the colon
leaves the field absent, and no daemon stdout can produce an empty-string
value for either field. -/
theorem status_empty_like_sentinel :
    (∀ st : ConnectionStatus,
      statusLine st "GENERAL.CONNECTION:" = st ∧
      statusLine st "GENERAL.CONNECTION:--" = st ∧
      statusLine st "IP4.GATEWAY:" = st ∧
      statusLine st "IP4.GATEWAY:--" = st) ∧
    (∀ iface : String,
      (statusOfLines iface ["GENERAL.CONNECTION:"]).connection = none ∧
      (statusOfLines iface ["IP4.GATEWAY:"]).gateway = none) ∧
    (∀ iface stdout : String,
      (statusOfLines iface (rustLines stdout)).connection ≠ some "" ∧
      (statusOfLines iface (rustLines stdout)).gateway ≠ some "") := by
  refine ⟨?_, ?_, ?_⟩
  · intro st
    exact ⟨rfl, rfl, rfl, rfl⟩
  · intro iface
    exact ⟨rfl, rfl⟩
  · intro iface stdout
    have h := foldl_statusLine_norm (rustLines stdout) (initStatus iface)
      (by intro v hv; exact absurd hv (by simp [initStatus]))
      (by intro v hv; exact absurd hv (by simp [initStatus]))
    constructor
    · intro hc
      exact (h.1 "" hc).1 rfl
    · intro hc
      exact (h.2 "" hc).1 rfl

/-- C6: `status` splits each line at the first colon only (the whole
remainder, further colons included, becomes the value), maps exactly the
four keys of interest while ignoring every other key, defaults the state
to `"unknown"` when no `GENERAL.STATE` line is present, and parses the
four example lines to the documented record. -/
theorem status_key_value_parsing :
    (∀ (st : ConnectionStatus) (v : String),
      statusLine st ("GENERAL.STATE:" ++ v) = { st with state := v }) ∧
    (∀ (st : ConnectionStatus) (k v : String), ':' ∉ k.data →
      k ≠ "GENERAL.STATE" → k ≠ "GENERAL.CONNECTION" →
      k ≠ "IP4.ADDRESS[1]" → k ≠ "IP4.GATEWAY" →
      statusLine st (k ++ ":" ++ v) = st) ∧
    (∀ (iface : String) (lines : List String),
      (∀ l ∈ lines, keyOf l ≠ some "GENERAL.STATE") →
      (statusOfLines iface lines).state = "unknown") ∧
    status "wlan1"
        (some ⟨true, "GENERAL.STATE:100 (connected)\nGENERAL.CONNECTION:RoboDog-AP\nIP4.ADDRESS[1]:192.168.4.2/24\nIP4.GATEWAY:192.168.4.1", ""⟩) =
      .ok { interface := "wlan1", state := "100 (connected)",
            connection := some "RoboDog-AP", ip_address := some "192.168.4.2/24",
            gateway := some "192.168.4.1" } := by
  refine ⟨?_, ?_, ?_, ?_⟩
  · intro st v
    rw [show ("GENERAL.STATE:" : String) ++ v = "GENERAL.STATE" ++ ":" ++ v from rfl]
    rw [statusLine_eq st "GENERAL.STATE" v (by decide)]
    rfl
  · intro st k v hcolon h1 h2 h3 h4
    rw [statusLine_eq st k v hcolon, if_neg h1, if_neg h2, if_neg h3, if_neg h4]
  · intro iface lines h
    exact foldl_statusLine_state lines (initStatus iface) h
  · rfl

/-- Closed instance of the hypothesis-bearing part of
`status_key_value_parsing`: a line with an unmapped key is ignored. -/
theorem status_key_value_parsing_witness :
    statusLine (initStatus "wlan1") ("WIFI-PROPERTIES.WEP" ++ ":" ++ "yes") =
      initStatus "wlan1" :=
  status_key_value_parsing.2.1 (initStatus "wlan1") "WIFI-PROPERTIES.WEP" "yes"
    (by decide) (by decide) (by decide) (by decide) (by decide)

/-- C5 counterexample: a record whose signal field reads `200` parses
successfully as a `u8` and is accepted verbatim, so the resulting signal
lies outside the claimed 0 to 100 range. -/
theorem scan_signal_above_100 :
    scanNetworksPure ["A:200:WPA2"] =
      [{ ssid := "A", signal := 200, security := "WPA2" }] ∧ ¬(200 ≤ 100) := by
  constructor
  · rw [scanNetworksPure_eq]
    rw [show scanLoop [] [] ["A:200:WPA2"] =
        [{ ssid := "A", signal := 200, security := "WPA2" }] from rfl]
    exact List.mergeSort_singleton _
  · decide

/-- C5 (amended): every accepted record's signal fits in eight bits
(0 to 255, the range of the `u8` parse), a signal field that fails the
`u8` parse yields the substitute value 0, and a malformed record never
aborts the scan: every successful listing invocation produces a result. -/
theorem scan_signal_range :
    (∀ (lines : List String), ∀ n ∈ scanNetworksPure lines, n.signal ≤ 255) ∧
    (∀ (line : String) (n : Network), scanRecord line = some n →
      parseU8 ((rustSplit line ':').getD 1 "") = none → n.signal = 0) ∧
    (∀ (rescan : Option CmdOutput) (o : CmdOutput), o.success = true →
      scanNetworks rescan (some o) = .ok (scanNetworksPure (rustLines o.stdout))) := by
  refine ⟨?_, ?_, ?_⟩
  · intro lines n hn
    rw [scanNetworksPure_eq] at hn
    exact scanLoop_signal_le lines [] [] (by simp) n (List.mem_mergeSort.mp hn)
  · intro line n h hp
    simp only [scanRecord] at h
    split at h
    · cases h
      rw [List.getD_eq_getElem?_getD] at hp
      simp [hp]
    · exact absurd h (by simp)
  · intro rescan o h
    simp [scanNetworks, h]

/-- Closed instance of `scan_signal_range`: a successful listing with one
well-formed record yields a scan result. -/
theorem scan_signal_range_witness :
    scanNetworks none (some ⟨true, "X:42:WPA2", ""⟩) =
      .ok (scanNetworksPure (rustLines "X:42:WPA2")) :=
  scan_signal_range.2.2 none ⟨true, "X:42:WPA2", ""⟩ rfl

/-- C3: scan results contain no empty SSID, at most one network per SSID
with the first-seen record's data winning, are sorted by descending
signal, and networks of equal signal keep their discovery order (the
sort is stable); the three example records reduce to exactly the two
documented networks in the documented order. -/
theorem scan_dedup_sort_spec :
    (∀ lines : List String,
      (∀ n ∈ scanNetworksPure lines, n.ssid ≠ "") ∧
      ((scanNetworksPure lines).map Network.ssid).Nodup ∧
      (scanNetworksPure lines).Pairwise (fun a b => b.signal ≤ a.signal) ∧
      (∀ n ∈ scanNetworksPure lines,
        (lines.filterMap scanRecord).find? (fun m => m.ssid == n.ssid) = some n) ∧
      (∀ s : Nat, (scanNetworksPure lines).filter (fun n => n.signal == s) =
        (scanLoop [] [] lines).filter (fun n => n.signal == s))) ∧
    scanNetworksPure ["A:50:WPA2", "B:90:", "A:30:WPA2"] =
      [{ ssid := "B", signal := 90, security := "" },
       { ssid := "A", signal := 50, security := "WPA2" }] := by
  constructor
  · intro lines
    refine ⟨?_, ?_, ?_, ?_, ?_⟩
    · intro n hn
      rw [scanNetworksPure_eq] at hn
      exact scanLoop_ssid_ne lines [] [] (by simp) n (List.mem_mergeSort.mp hn)
    · rw [scanNetworksPure_eq]
      have hperm :=
        (List.mergeSort_perm (scanLoop [] [] lines) signalDescLe).map Network.ssid
      exact hperm.nodup_iff.mpr (scanLoop_nodup lines [] [] (by simp) (by simp))
    · rw [scanNetworksPure_eq]
      exact (List.sorted_mergeSort signalDescLe_trans signalDescLe_total
        (scanLoop [] [] lines)).imp (fun h => by simpa [signalDescLe] using h)
    · intro n hn
      rw [scanNetworksPure_eq] at hn
      rcases scanLoop_firstSeen lines [] [] (by simp) n (List.mem_mergeSort.mp hn) with
        h | ⟨_, _, h3⟩
      · exact absurd h (List.not_mem_nil n)
      · exact h3
    · intro s
      rw [scanNetworksPure_eq]
      apply mergeSort_filter_eq_of_le signalDescLe signalDescLe_trans signalDescLe_total
      intro a b ha hb
      simp only [beq_iff_eq] at ha hb
      simp [signalDescLe, ha, hb]
  · rw [scanNetworksPure_eq]
    rw [show scanLoop [] [] ["A:50:WPA2", "B:90:", "A:30:WPA2"] =
        [{ ssid := "A", signal := 50, security := "WPA2" },
         { ssid := "B", signal := 90, security := "" }] from rfl]
    rw [mergeSort_pair]
    decide

/-- Closed instance of `scan_dedup_sort_spec`: the first-seen record for
SSID `"A"` in the example listing is the one the result set retains. -/
theorem scan_dedup_sort_spec_witness :
    (["A:50:WPA2", "B:90:", "A:30:WPA2"].filterMap scanRecord).find?
        (fun m => m.ssid == ("A" : String)) =
      some { ssid := "A", signal := 50, security := "WPA2" } :=
  (scan_dedup_sort_spec.1 ["A:50:WPA2", "B:90:", "A:30:WPA2"]).2.2.2.1
    { ssid := "A", signal := 50, security := "WPA2" }
    (by rw [scan_dedup_sort_spec.2]; exact List.mem_cons_of_mem _ (List.mem_singleton_self _))

/-- C4 counterexample: a device-listing record with a fourth field keeps
only the third field as the adapter state; the surplus `":extra"` is
discarded rather than reassembled into the state. -/
theorem device_state_surplus_dropped :
    listWifiInterfacesPure envAbsent ["wlan0:wifi:connected:extra"] =
      [{ name := "wlan0", state := "connected", is_usb := false }] := rfl

/-- C4 (amended): a scan record's surplus fields are reassembled, colons
included, into `security`; a device-listing record, however, keeps only
its third field as the state and discards any surplus fields. -/
theorem surplus_field_reassembly :
    (∀ (s1 s2 rest : String), ':' ∉ s1.data → ':' ∉ s2.data →
      scanRecord (s1 ++ ":" ++ (s2 ++ ":" ++ rest)) =
        some { ssid := s1, signal := (parseU8 s2).getD 0, security := rest }) ∧
    (∀ (env : String → SysfsDevice) (name st rest : String),
      ':' ∉ name.data → ':' ∉ st.data →
      listWifiInterfacesPure env [name ++ ":" ++ ("wifi" ++ ":" ++ (st ++ ":" ++ rest))] =
        [{ name := name, state := st, is_usb := isUsbInterface (env name) }]) :=
  ⟨scanRecord_fields, listWifiLine_fields⟩

/-- Closed instance of `surplus_field_reassembly`: a compound security
descriptor containing a colon survives reassembly verbatim. -/
theorem surplus_field_reassembly_witness :
    scanRecord ("CoffeeShop" ++ ":" ++ ("77" ++ ":" ++ "WPA1 WPA2:802.1X")) =
      some { ssid := "CoffeeShop", signal := (parseU8 "77").getD 0,
             security := "WPA1 WPA2:802.1X" } :=
  surplus_field_reassembly.1 "CoffeeShop" "77" "WPA1 WPA2:802.1X" (by decide) (by decide)

/-- C2 counterexample: an adapter whose device symlink resolves to a path
without `"usb"` is classified non-USB even though its uevent metadata
contains `"usb"`; the fallback is never consulted when the symlink is
readable. -/
theorem usb_uevent_ignored_when_symlink_readable :
    isUsbInterface
        ⟨true, some "../../devices/pci0000/net/wlan1", some "DEVTYPE=usb_interface"⟩ =
      false := by decide

/-- C2 (amended): a missing device entry is classified non-USB; a
readable symlink decides the classification by itself (the resolved path
containing `"usb"` or not), with the uevent metadata ignored; the uevent
check applies only when the symlink cannot be read; with neither source
available the classification defaults to false. -/
theorem usb_classification_rule :
    (∀ dev : SysfsDevice, dev.deviceExists = false → isUsbInterface dev = false) ∧
    (∀ (dev : SysfsDevice) (s : String), dev.deviceExists = true →
      dev.readLink = some s → isUsbInterface dev = rustContains s "usb") ∧
    (∀ (dev : SysfsDevice) (c : String), dev.deviceExists = true →
      dev.readLink = none → dev.uevent = some c →
      isUsbInterface dev = rustContains c "usb") ∧
    (∀ dev : SysfsDevice, dev.readLink = none → dev.uevent = none →
      isUsbInterface dev = false) := by
  refine ⟨?_, ?_, ?_, ?_⟩
  · intro dev h
    simp [isUsbInterface, h]
  · intro dev s hex hrl
    simp [isUsbInterface, hex, hrl]
  · intro dev c hex hrl huev
    simp only [isUsbInterface, hex, hrl, huev, Bool.not_true, Bool.false_eq_true,
      if_false]
    cases rustContains c "usb" <;> simp
  · intro dev hrl huev
    cases hex : dev.deviceExists with
    | false => simp [isUsbInterface, hex]
    | true => simp [isUsbInterface, hex, hrl, huev]

/-- Closed instance of `usb_classification_rule`: a readable symlink whose
target contains `"usb"` classifies the adapter as USB. -/
theorem usb_classification_rule_witness :
    isUsbInterface ⟨true, some "../../usb1/1-1.2/net/wlan1", none⟩ =
      rustContains "../../usb1/1-1.2/net/wlan1" "usb" :=
  usb_classification_rule.2.1 ⟨true, some "../../usb1/1-1.2/net/wlan1", none⟩
    "../../usb1/1-1.2/net/wlan1" rfl rfl

/-- C7: for every successful listing, resolving an explicit name succeeds
with a listed adapter of that name exactly when the name appears among
the listed wireless adapters, failing with `InterfaceNotFound(name)`
otherwise; resolving without a name returns the first listed adapter
classified USB and fails with `NoUsbInterfaceFound` when no listed
adapter is USB-classified. -/
theorem resolve_interface_spec :
    ∀ (env : String → SysfsDevice) (out : Option CmdOutput)
      (interfaces : List WifiInterface),
      listWifiInterfaces env out = .ok interfaces →
      (∀ name : String,
        ((∃ i, resolveInterface env out (some name) = .ok i ∧
            i ∈ interfaces ∧ i.name = name) ↔
          name ∈ interfaces.map WifiInterface.name) ∧
        (name ∉ interfaces.map WifiInterface.name →
          resolveInterface env out (some name) = .error (.InterfaceNotFound name))) ∧
      (∀ i, interfaces.find? (fun j => j.is_usb) = some i →
        resolveInterface env out none = .ok i) ∧
      ((∀ i ∈ interfaces, i.is_usb = false) →
        resolveInterface env out none = .error .NoUsbInterfaceFound) := by
  intro env out interfaces hok
  have hres : ∀ name : String, resolveInterface env out (some name) =
      (match interfaces.find? (fun i => i.name == name) with
        | some i => .ok i
        | none => .error (.InterfaceNotFound name)) := by
    intro name
    show getInterface env out name = _
    unfold getInterface
    rw [hok]
    rfl
  have husb : resolveInterface env out none =
      (match interfaces.find? (fun j => j.is_usb) with
        | some i => .ok i
        | none => .error .NoUsbInterfaceFound) := by
    show findUsbWifiInterface env out = _
    unfold findUsbWifiInterface
    rw [hok]
    rfl
  refine ⟨?_, ?_, ?_⟩
  · intro name
    constructor
    · constructor
      · rintro ⟨i, _, hmem, hname⟩
        exact List.mem_map.mpr ⟨i, hmem, hname⟩
      · intro hmem
        rcases List.mem_map.mp hmem with ⟨i, hi, hname⟩
        have hsome : (interfaces.find? (fun i => i.name == name)).isSome := by
          rw [List.find?_isSome]
          exact ⟨i, hi, by simp [hname]⟩
        rcases Option.isSome_iff_exists.mp hsome with ⟨j, hj⟩
        refine ⟨j, ?_, List.mem_of_find?_eq_some hj, by simpa using List.find?_some hj⟩
        rw [hres name, hj]
    · intro hnot
      have hnone : interfaces.find? (fun i => i.name == name) = none := by
        rw [List.find?_eq_none]
        intro x hx
        simp only [beq_iff_eq]
        intro hxn
        exact hnot (List.mem_map.mpr ⟨x, hx, hxn⟩)
      rw [hres name, hnone]
  · intro i hi
    rw [husb, hi]
  · intro hall
    have hnone : interfaces.find? (fun j => j.is_usb) = none := by
      rw [List.find?_eq_none]
      intro x hx
      simp [hall x hx]
    rw [husb, hnone]

/-- Closed instance of `resolve_interface_spec`: a listing with one
non-USB wireless adapter makes nameless resolution fail with
`NoUsbInterfaceFound`. -/
theorem resolve_interface_spec_witness :
    resolveInterface envAbsent
        (some ⟨true, "wlan0:wifi:disconnected\neth0:ethernet:connected", ""⟩) none =
      .error .NoUsbInterfaceFound :=
  (resolve_interface_spec envAbsent
      (some ⟨true, "wlan0:wifi:disconnected\neth0:ethernet:connected", ""⟩)
      [{ name := "wlan0", state := "disconnected", is_usb := false }] rfl).2.2
    (by decide)

/-- C8: the scan result is entirely independent of the rescan
invocation's outcome, a scan succeeds exactly when the network-list
invocation succeeds, a non-zero list exit fails the scan with the
daemon-execution error carrying the list invocation's stderr, and an
unspawnable list command fails it with the spawn error. -/
theorem scan_rescan_swallowed :
    ∀ (r1 r2 listing : Option CmdOutput),
      scanNetworks r1 listing = scanNetworks r2 listing ∧
      ((∃ ns, scanNetworks r1 listing = .ok ns) ↔
        ∃ o, listing = some o ∧ o.success = true) ∧
      (∀ o, listing = some o → o.success = false →
        scanNetworks r1 listing = .error (.NmcliExecution o.stderr)) ∧
      (listing = none →
        scanNetworks r1 listing = .error (.ExecFailed "Failed to execute nmcli wifi list")) := by
  intro r1 r2 listing
  refine ⟨rfl, ?_, ?_, ?_⟩
  · constructor
    · rintro ⟨ns, hns⟩
      cases listing with
      | none => exact absurd hns (by simp [scanNetworks])
      | some o =>
        cases hsucc : o.success with
        | false => exact absurd hns (by simp [scanNetworks, hsucc])
        | true => exact ⟨o, rfl, hsucc⟩
    · rintro ⟨o, ho, hsucc⟩
      subst ho
      exact ⟨scanNetworksPure (rustLines o.stdout), by simp [scanNetworks, hsucc]⟩
  · intro o ho hfail
    subst ho
    simp [scanNetworks, hfail]
  · intro h
    subst h
    rfl

/-- Closed instance of `scan_rescan_swallowed`: a failed listing
invocation surfaces its stderr regardless of the rescan outcome. -/
theorem scan_rescan_swallowed_witness :
    scanNetworks none (some ⟨false, "", "device busy"⟩) =
      .error (.NmcliExecution "device busy") :=
  (scan_rescan_swallowed none (some ⟨true, "", ""⟩)
      (some ⟨false, "", "device busy"⟩)).2.2.1 ⟨false, "", "device busy"⟩ rfl rfl

/-- C9: `connect` succeeds exactly when the connect invocation exits
zero; on a non-zero exit it fails with `ConnectionFailed(message)` where
the message is stderr when stderr is non-empty and stdout otherwise. -/
theorem connect_error_message :
    ∀ (iface ssid password : String) (out : Option CmdOutput),
      ((connect iface ssid password out = .ok ()) ↔
        ∃ o, out = some o ∧ o.success = true) ∧
      (∀ o, out = some o → o.success = false →
        ∃ msg, connect iface ssid password out = .error (.ConnectionFailed msg) ∧
          (o.stderr ≠ "" → msg = o.stderr) ∧ (o.stderr = "" → msg = o.stdout)) := by
  intro iface ssid password out
  constructor
  · constructor
    · intro hok
      cases out with
      | none => exact absurd hok (by simp [connect])
      | some o =>
        cases hsucc : o.success with
        | false => exact absurd hok (by simp [connect, hsucc])
        | true => exact ⟨o, rfl, hsucc⟩
    · rintro ⟨o, ho, hsucc⟩
      subst ho
      simp [connect, hsucc]
  · intro o ho hfail
    subst ho
    refine ⟨if o.stderr = "" then o.stdout else o.stderr, by simp [connect, hfail], ?_, ?_⟩
    · intro hne
      rw [if_neg hne]
    · intro he
      rw [if_pos he]

/-- Closed instance of `connect_error_message`: a failed connect with
non-empty stderr reports the stderr text. -/
theorem connect_error_message_witness :
    ∃ msg, connect "wlan1" "RoboDog-AP" "pw" (some ⟨false, "out text", "err text"⟩) =
        .error (.ConnectionFailed msg) ∧
      (("err text" : String) ≠ "" → msg = "err text") ∧
      (("err text" : String) = "" → msg = "out text") :=
  (connect_error_message "wlan1" "RoboDog-AP" "pw"
      (some ⟨false, "out text", "err text"⟩)).2 ⟨false, "out text", "err text"⟩ rfl rfl

/-- Closed instance of `status_absent_field_normalization`: a connected
status output yields a normalized connection field. -/
theorem status_absent_field_normalization_witness :
    normalizedField
        (statusOfLines "wlan1" (rustLines "GENERAL.CONNECTION:RoboDog-AP")).connection =
      true :=
  (status_absent_field_normalization.1 "wlan1" "GENERAL.CONNECTION:RoboDog-AP").1

/-- Closed instance of `status_empty_like_sentinel`: a connection line
with an empty value leaves the status record unchanged. -/
theorem status_empty_like_sentinel_witness :
    statusLine (initStatus "wlan1") "GENERAL.CONNECTION:" = initStatus "wlan1" :=
  (status_empty_like_sentinel.1 (initStatus "wlan1")).1

end WifiProxy
